import Mathlib

/-! Konqueror view history and Dolphin selection toggle.

A shallow embedding of

* `src/konqueror/konq_view.h`: `HistoryEntry`, the history list of `KonqView`
  with its inline members `lockHistory`, `canGoBack`, `canGoForward`,
  `history`, `locationBarURL`, `isLockedViewMode` and the flag setters;
* `src/src/views/selectionmanager.cpp`: `SelectionManager::eventFilter` and
  the geometry computed by `SelectionManager::slotEntered`.

The bodies of `KonqView::openURL`, `KonqView::go`, `KonqView::url`,
`KonqView::createHistoryEntry` and `KonqView::updateHistoryEntry` are only
declared in the header; they are modelled from the specification and marked
as such.
-/

namespace Konq

/-! ## Machine integers -/

/-- The value of a mathematical integer once stored in a 32 bit `int`
(two's complement wrap-around). -/
def wrapInt32 (x : Int) : Int := (x + 2147483648) % 4294967296 - 2147483648

/-! ## Data model of `konq_view.h` -/

/-- Source: `KURL`, kept as its textual form. -/
abbrev KURL := String

/-- Source: `QString`. -/
abbrev QString := String

/-- Source: `QByteArray`, a sequence of bytes. -/
abbrev QByteArray := List Nat

/-- Source: `struct HistoryEntry` of `konq_view.h`. -/
structure HistoryEntry where
  url : KURL
  locationBarURL : QString
  title : QString
  buffer : QByteArray
  strServiceType : QString
  strServiceName : QString
  deriving DecidableEq, Repr

/-- Qt 2 `QList<T>` as `KonqView` uses it: the items in order together with
the index of the current item, which is `-1` when the list has no current
item. -/
structure QList (α : Type) where
  items : List α
  curIndex : Int
  deriving DecidableEq, Repr

namespace QList

variable {α : Type}

/-- Source: `QList::at()`: index of the current item, `-1` when there is none. -/
def atCurrent (l : QList α) : Int := l.curIndex

/-- Source: `QList::count()`: number of items (a `uint`). -/
def count (l : QList α) : Nat := l.items.length

/-- Source: `QList::current()`: the current item, if any. -/
def current (l : QList α) : Option α :=
  if 0 ≤ l.curIndex then l.items[l.curIndex.toNat]? else none

/-- The cursor is `-1` (no current entry) or a valid index. -/
def CursorOk (l : QList α) : Prop :=
  l.curIndex = -1 ∨ (0 ≤ l.curIndex ∧ l.curIndex < l.items.length)

/-- The counter fits its `uint` and the cursor fits its `int`. -/
def Representable (l : QList α) : Prop :=
  l.items.length < 4294967296 ∧ -2147483648 ≤ l.curIndex ∧ l.curIndex < 2147483648

instance (l : QList α) : Decidable l.CursorOk := by
  unfold CursorOk; infer_instance

instance (l : QList α) : Decidable l.Representable := by
  unfold Representable; infer_instance

end QList

/-- The data members of `class KonqView` that are values. The pointer
members (part, main window, frame, run, meta view, DCOP object) and the
service offers are not part of the model. `m_url` stands for what `url()`
returns: the header only declares `url()`, and the specification calls it
the pane's `address`. -/
structure KonqView where
  m_url : KURL
  m_sLocationBarURL : QString
  m_sTypedURL : QString
  m_lstHistory : QList HistoryEntry
  m_bAllowHTML : Bool
  m_bLoading : Bool
  m_bLockedLocation : Bool
  m_bPassiveMode : Bool
  m_bLockedViewMode : Bool
  m_bLinkedView : Bool
  m_bToggleView : Bool
  m_serviceType : QString
  m_bLockHistory : Bool
  m_name : QString
  m_bAborted : Bool
  deriving DecidableEq, Repr

namespace KonqView

/-- Source: `void lockHistory() { m_bLockHistory = true; }` -/
def lockHistory (v : KonqView) : KonqView := { v with m_bLockHistory := true }

/-- Source: `bool canGoBack() { return m_lstHistory.at() > 0; }` -/
def canGoBack (v : KonqView) : Bool := decide (v.m_lstHistory.atCurrent > 0)

/-- Source: `bool canGoForward() { return m_lstHistory.at() != ((int)m_lstHistory.count())-1; }`
The cast and the subtraction are 32 bit `int` operations. -/
def canGoForward (v : KonqView) : Bool :=
  decide (v.m_lstHistory.atCurrent ≠ wrapInt32 (wrapInt32 v.m_lstHistory.count - 1))

/-- Source: `const QList<HistoryEntry> & history() { return m_lstHistory; }` -/
def history (v : KonqView) : QList HistoryEntry := v.m_lstHistory

/-- Source: `const QString locationBarURL() { return m_sLocationBarURL; }` -/
def locationBarURL (v : KonqView) : QString := v.m_sLocationBarURL

/-- Source: `KURL url();` The body is not in the header; see `KonqView.m_url`. -/
def url (v : KonqView) : KURL := v.m_url

/-- Source: `void setTypedURL( const QString & u ) { m_sTypedURL = u; }` -/
def setTypedURL (v : KonqView) (u : QString) : KonqView := { v with m_sTypedURL := u }

/-- Source: `bool allowHTML() const { return m_bAllowHTML; }` -/
def allowHTML (v : KonqView) : Bool := v.m_bAllowHTML

/-- Source: `bool isLoading() const { return m_bLoading; }` -/
def isLoading (v : KonqView) : Bool := v.m_bLoading

/-- Source: `void setLoading( bool b ) { m_bLoading = b; }` -/
def setLoading (v : KonqView) (b : Bool) : KonqView := { v with m_bLoading := b }

/-- Source: `bool isLockedLocation() const { return m_bLockedLocation; }` -/
def isLockedLocation (v : KonqView) : Bool := v.m_bLockedLocation

/-- Source: `void setLockedLocation( bool b ) { m_bLockedLocation = b; }` -/
def setLockedLocation (v : KonqView) (b : Bool) : KonqView := { v with m_bLockedLocation := b }

/-- Source: `bool isPassiveMode() const { return m_bPassiveMode; }` -/
def isPassiveMode (v : KonqView) : Bool := v.m_bPassiveMode

/-- Source: `bool isLockedViewMode() const { return m_bLockedViewMode || m_bToggleView || m_bPassiveMode; }` -/
def isLockedViewMode (v : KonqView) : Bool :=
  v.m_bLockedViewMode || v.m_bToggleView || v.m_bPassiveMode

/-- Source: `void setLockedViewMode( bool mode ) { m_bLockedViewMode = mode; }` -/
def setLockedViewMode (v : KonqView) (mode : Bool) : KonqView := { v with m_bLockedViewMode := mode }

/-- Source: `bool isLinkedView() const { return m_bLinkedView; }` -/
def isLinkedView (v : KonqView) : Bool := v.m_bLinkedView

/-- Source: `void setToggleView( bool b ) { m_bToggleView = b; }` -/
def setToggleView (v : KonqView) (b : Bool) : KonqView := { v with m_bToggleView := b }

/-- Source: `bool isToggleView() const { return m_bToggleView; }` -/
def isToggleView (v : KonqView) : Bool := v.m_bToggleView

end KonqView

/-! ## History stack (specification, section 4.3)

The bodies of `createHistoryEntry`, `updateHistoryEntry`, `go` and `openURL`
live in `konq_view.cc`, which is not available; the operations below follow
the specification of the HistoryStack and of the Pane. -/

/-- Failure of a history move: the target position is not a valid index. -/
inductive HistoryError where
  | outOfRange
  deriving DecidableEq, Repr

namespace HistoryStack

variable {α : Type}

/-- Modelled from the spec: the truncation inside `append(entry)`, "drop every
entry beyond the cursor" (the body of `KonqView::createHistoryEntry` is
missing). `i` is the index of the head of the list; an entry is kept exactly
when its index is not beyond the cursor. -/
def dropBeyond (cursor : Int) : Nat → List α → List α
  | _, [] => []
  | i, x :: xs =>
    if (i : Int) ≤ cursor then x :: dropBeyond cursor (i + 1) xs
    else dropBeyond cursor (i + 1) xs

/-- Modelled from the spec: `append(entry)` of the HistoryStack, "drop every
entry beyond the cursor, push `entry`, cursor := last index" (the body of
`KonqView::createHistoryEntry` is missing). -/
def append (l : QList α) (entry : α) : QList α :=
  let kept := dropBeyond l.curIndex 0 l.items
  let pushed := kept ++ [entry]
  { items := pushed, curIndex := (pushed.length : Int) - 1 }

/-- Modelled from the spec: `move(steps)` of the HistoryStack, "fails with
`OutOfRange` if `cursor + steps` is not a valid index; otherwise cursor
updates and returns the entry at the new cursor" (the body of `KonqView::go`
is missing). -/
def move (l : QList α) (steps : Int) : Except HistoryError (QList α × α) :=
  let newPos := l.curIndex + steps
  if 0 ≤ newPos then
    match l.items[newPos.toNat]? with
    | some e => .ok ({ l with curIndex := newPos }, e)
    | none => .error .outOfRange
  else .error .outOfRange

/-- Modelled from the spec: `updateCurrent(mutator)` of the HistoryStack,
"mutates the entry at the cursor in place" (the body of
`KonqView::updateHistoryEntry` is missing). Without a current entry nothing
changes. -/
def updateCurrent (l : QList α) (mutator : α → α) : QList α :=
  if 0 ≤ l.curIndex then { l with items := l.items.modify mutator l.curIndex.toNat }
  else l

end HistoryStack

namespace KonqView

/-- Modelled from the spec: the initial `Empty` pane, with no history entry,
no current entry and every flag cleared (the constructor body is missing). -/
def empty : KonqView :=
  { m_url := "", m_sLocationBarURL := "", m_sTypedURL := "",
    m_lstHistory := { items := [], curIndex := -1 },
    m_bAllowHTML := false, m_bLoading := false, m_bLockedLocation := false,
    m_bPassiveMode := false, m_bLockedViewMode := false, m_bLinkedView := false,
    m_bToggleView := false, m_serviceType := "", m_bLockHistory := false,
    m_name := "", m_bAborted := false }

/-- Modelled from the spec: `createHistoryEntry`, which is `append(entry)` on
the pane's HistoryStack (the body of `KonqView::createHistoryEntry` is
missing). -/
def createHistoryEntry (v : KonqView) (entry : HistoryEntry) : KonqView :=
  { v with m_lstHistory := HistoryStack.append v.m_lstHistory entry }

/-- Modelled from the spec: whether displaying `address` is a same-entry
reload, that is, the current entry already records this address. -/
def isSameEntryReload (v : KonqView) (address : KURL) : Bool :=
  match v.m_lstHistory.current with
  | some e => decide (e.url = address)
  | none => false

/-- Modelled from the spec: the displayed address that a display of `address`
records, "`displayedAddress` (which may differ from `address`) only if
`allow-redirect-display` permits divergence"; the flag is `m_bAllowHTML`. -/
def displayedAddress (v : KonqView) (address : KURL) (displayedAddressHint : Option QString) :
    QString :=
  if v.m_bAllowHTML then displayedAddressHint.getD address else address

/-- Modelled from the spec: `display(address, displayedAddressHint?,
suppressHistory)` of the Pane for a load that completes (section 4.4, step 4;
the body of `KonqView::openURL` is missing): `loading` is cleared; when the
history is not suppressed and the address is not a same-entry reload a new
entry is appended, otherwise the current entry is updated in place; the pane
shows `address` and the recorded displayed address. The choice of the
renderer (steps 1 to 3) is left to the external collaborators. -/
def display (v : KonqView) (address : KURL) (displayedAddressHint : Option QString)
    (suppressHistory : Bool) : KonqView :=
  let shown := v.displayedAddress address displayedAddressHint
  let hist :=
    if !suppressHistory && !v.isSameEntryReload address then
      HistoryStack.append v.m_lstHistory
        { url := address, locationBarURL := shown, title := "", buffer := [],
          strServiceType := v.m_serviceType, strServiceName := "" }
    else
      HistoryStack.updateCurrent v.m_lstHistory
        (fun e => { e with url := address, locationBarURL := shown })
  { v with m_lstHistory := hist, m_url := address, m_sLocationBarURL := shown,
           m_bLoading := false }

/-- Modelled from the spec: `openURL(url, locationBarURL)`, the `display` call
that consumes the one-shot flag set by `lockHistory()`: "`lockHistory()` is a
one-shot flag consumed by the next `display` call, then cleared" (the body of
`KonqView::openURL` is missing; its `nameFilter` argument plays no part in
the history). -/
def openURL (v : KonqView) (url : KURL) (locationBarURL : QString) : KonqView :=
  display { v with m_bLockHistory := false } url (some locationBarURL) v.m_bLockHistory

/-- Modelled from the spec: `go(steps)`, which "delegates to
HistoryStack.move; on success, re-displays the resulting entry's
`address`/`displayedAddress` with `suppressHistory=true`; on `OutOfRange`,
reports a no-op failure" (the body of `KonqView::go` is missing). The
re-display is the `display` operation on the entry's address, with the
entry's displayed address as the hint and the history suppressed. -/
def go (v : KonqView) (steps : Int) : Except HistoryError KonqView :=
  match HistoryStack.move v.m_lstHistory steps with
  | .error err => .error err
  | .ok (l, h) =>
    .ok (display { v with m_lstHistory := l } h.url (some h.locationBarURL) true)

end KonqView

end Konq

namespace Dolphin

open Konq (wrapInt32)

/-! ## Qt and KDE library types used by `selectionmanager.cpp` -/

/-- Source: `KUrl`, kept as its textual form; the empty string is `KUrl()`. -/
abbrev KUrl := String

/-- Source: `KIconLoader::SizeSmall`, a KDE library constant. -/
def KIconLoader.SizeSmall : Int := 16

/-- Source: `KIconLoader::SizeSmallMedium`, a KDE library constant. -/
def KIconLoader.SizeSmallMedium : Int := 22

/-- Source: `KIconLoader::SizeMedium`, a KDE library constant. -/
def KIconLoader.SizeMedium : Int := 32

/-- Source: `KIconLoader::SizeLarge`, a KDE library constant. -/
def KIconLoader.SizeLarge : Int := 48

/-- Source: `KIconLoader::SizeEnormous`, a KDE library constant. -/
def KIconLoader.SizeEnormous : Int := 128

/-- Source: `QPoint`. -/
structure QPoint where
  x : Int
  y : Int
  deriving DecidableEq, Repr

/-- Source: `QSize`. -/
structure QSize where
  width : Int
  height : Int
  deriving DecidableEq, Repr

/-- Source: `QRect`, stored by Qt as its two corners, both inclusive. -/
structure QRect where
  x1 : Int
  y1 : Int
  x2 : Int
  y2 : Int
  deriving DecidableEq, Repr

namespace QRect

/-- Source: `QRect(const QPoint &topLeft, const QSize &size)`. -/
def ofTopLeftSize (topLeft : QPoint) (size : QSize) : QRect :=
  { x1 := topLeft.x, y1 := topLeft.y,
    x2 := topLeft.x + size.width - 1, y2 := topLeft.y + size.height - 1 }

/-- Source: `QRect::height()`. -/
def height (r : QRect) : Int := r.y2 - r.y1 + 1

/-- Source: `QRect::topLeft()`. -/
def topLeft (r : QRect) : QPoint := { x := r.x1, y := r.y1 }

/-- Source: `QRect::contains(const QPoint &p)` of Qt 4 with `proper == false`:
each axis is taken in its normalised order and both ends are inclusive. -/
def contains (r : QRect) (p : QPoint) : Bool :=
  let l := if r.x2 < r.x1 - 1 then r.x2 else r.x1
  let rt := if r.x2 < r.x1 - 1 then r.x1 else r.x2
  let t := if r.y2 < r.y1 - 1 then r.y2 else r.y1
  let b := if r.y2 < r.y1 - 1 then r.y1 else r.y2
  if p.x < l ∨ p.x > rt then false
  else if p.y < t ∨ p.y > b then false
  else true

end QRect

/-- Source: `QEvent::Type`, the kinds of event that reach a viewport. -/
inductive QEventType where
  | mouseButtonPress
  | mouseButtonRelease
  | mouseButtonDblClick
  | mouseMove
  | keyPress
  | paint
  | other (code : Nat)
  deriving DecidableEq, Repr

/-- The state of the `SelectionToggle` widget that `SelectionManager` reads
and writes: visibility, check state, the URL of its item, the margin, and the
geometry requested through `resize` and `move`. -/
structure SelectionToggle where
  visible : Bool
  checked : Bool
  url : KUrl
  margin : Int
  size : QSize
  pos : QPoint
  deriving DecidableEq, Repr

/-- The members of `SelectionManager` that are values. -/
structure SelectionManager where
  m_toggle : SelectionToggle
  m_connected : Bool
  deriving DecidableEq, Repr

/-- What `slotEntered` reads from the view about the entered index:
`index.isValid()`, `index.column() == DolphinModel::Name`, `urlForIndex(index)`,
`m_view->visualRect(index)` and `selModel->isSelected(index)`. -/
structure EnteredIndex where
  isValid : Bool
  isNameColumn : Bool
  url : KUrl
  visualRect : QRect
  isSelected : Bool
  deriving DecidableEq, Repr

/-- Source: `QObject::eventFilter`, the base implementation, which filters
nothing. -/
def QObject.eventFilter (_event : QEventType) : Bool := false

namespace SelectionManager

/-- Source: `SelectionManager::eventFilter`. `toggleOrigin` is
`m_toggle->mapToGlobal(QPoint(0, 0))` and `cursorPos` is `QCursor::pos()`:
```
if (event->type() == QEvent::MouseButtonPress) {
    const QRect toggleBounds(m_toggle->mapToGlobal(QPoint(0, 0)), m_toggle->size());
    m_toggle->setVisible(toggleBounds.contains(QCursor::pos()));
}
return QObject::eventFilter(watched, event);
```
The result is the new state and the returned flag; the `Q_ASSERT` on `watched`
does not touch the state. -/
def eventFilter (m : SelectionManager) (event : QEventType) (toggleOrigin cursorPos : QPoint) :
    SelectionManager × Bool :=
  let m1 :=
    if event = QEventType.mouseButtonPress then
      let toggleBounds := QRect.ofTopLeftSize toggleOrigin m.m_toggle.size
      { m with m_toggle := { m.m_toggle with visible := toggleBounds.contains cursorPos } }
    else m
  (m1, QObject.eventFilter event)

/-- Source: the base size of the toggle in `SelectionManager::slotEntered`:
```
int toggleSize = KIconLoader::SizeSmall;
if (iconHeight >= KIconLoader::SizeEnormous) {
    toggleSize = KIconLoader::SizeMedium;
} else if (iconHeight >= KIconLoader::SizeLarge) {
    toggleSize = KIconLoader::SizeSmallMedium;
}
``` -/
def toggleBaseSize (iconHeight : Int) : Int :=
  if iconHeight ≥ KIconLoader.SizeEnormous then KIconLoader.SizeMedium
  else if iconHeight ≥ KIconLoader.SizeLarge then KIconLoader.SizeSmallMedium
  else KIconLoader.SizeSmall

/-- Source: the margin computed in `SelectionManager::slotEntered`, with the
truncating division and the 32 bit arithmetic of C++ `int`:
```
int margin = (rect.height() - toggleSize) / 2;
if (margin > 4) {
    margin = 0;
}
``` -/
def toggleMargin (iconHeight rectHeight : Int) : Int :=
  let margin := Int.tdiv (wrapInt32 (rectHeight - toggleBaseSize iconHeight)) 2
  if margin > 4 then 0 else margin

/-- Source: the side of the toggle after `toggleSize += 2 * margin;` in
`SelectionManager::slotEntered`. -/
def toggleSide (iconHeight rectHeight : Int) : Int :=
  wrapInt32 (toggleBaseSize iconHeight + wrapInt32 (2 * toggleMargin iconHeight rectHeight))

/-- Source: `SelectionManager::slotEntered`. `noMouseButton` is
`QApplication::mouseButtons() == Qt::NoButton` and `iconHeight` is
`m_view->iconSize().height()`. The toggle is hidden first; when it is to be
shown it gets the URL of the index, the margin, a square size, the top left
corner of the item and the selection state, and the manager is connected to
the model; otherwise the URL is cleared and the manager is disconnected. -/
def slotEntered (m : SelectionManager) (index : EnteredIndex) (noMouseButton : Bool)
    (iconHeight : Int) : SelectionManager :=
  let hidden := { m.m_toggle with visible := false }
  let showToggle := index.isValid && index.isNameColumn && noMouseButton
  if showToggle then
    let rectHeight := index.visualRect.height
    let margin := toggleMargin iconHeight rectHeight
    let toggleSize := toggleSide iconHeight rectHeight
    { m_toggle :=
        { hidden with
          url := index.url, margin := margin,
          size := { width := toggleSize, height := toggleSize },
          pos := index.visualRect.topLeft,
          checked := index.isSelected, visible := true },
      m_connected := true }
  else
    { m_toggle := { hidden with url := "" }, m_connected := false }

/-- A concrete entered index: a valid name column item of height 12. -/
def smallItem : EnteredIndex :=
  { isValid := true, isNameColumn := true, url := "file:///tmp/a",
    visualRect := { x1 := 0, y1 := 0, x2 := 99, y2 := 11 }, isSelected := false }

/-- A concrete entered index: a valid name column item of height 22. -/
def rowItem : EnteredIndex :=
  { isValid := true, isNameColumn := true, url := "file:///tmp/a",
    visualRect := { x1 := 0, y1 := 40, x2 := 199, y2 := 61 }, isSelected := true }

/-- A manager whose toggle is hidden and carries no item. -/
def idle : SelectionManager :=
  { m_toggle :=
      { visible := false, checked := false, url := "", margin := 0,
        size := { width := 16, height := 16 }, pos := { x := 0, y := 0 } },
    m_connected := false }

end SelectionManager

end Dolphin

/-! ## Theorems -/

namespace Konq

namespace KonqView

/-- C1: for a history whose cursor is `-1` or a valid index, `canGoBack()` is
true exactly when the cursor is greater than 0; it is false for an empty
history and when the cursor is on the first entry. -/
theorem canGoBack_iff_cursor_pos (v : KonqView) (h : v.history.CursorOk) :
    (v.canGoBack = true ↔ 0 < v.history.atCurrent) ∧
    (v.history.items = [] → v.canGoBack = false) ∧
    (v.history.atCurrent = 0 → v.canGoBack = false) := by
  unfold canGoBack history QList.atCurrent
  unfold history QList.CursorOk at h
  refine ⟨by simp, ?_, ?_⟩
  · intro he
    rw [he] at h
    simp only [List.length_nil, Nat.cast_zero] at h
    have : ¬ v.m_lstHistory.curIndex > 0 := by omega
    simp [this]
  · intro h0
    simp [h0]

/-- Witness of C1 on the pane that displayed `A` and then `B`. -/
theorem canGoBack_iff_cursor_pos_witness :
    ((empty.openURL "A" "A").openURL "B" "B").history.CursorOk ∧
    ((empty.openURL "A" "A").openURL "B" "B").canGoBack = true ∧
    (0 : Int) < ((empty.openURL "A" "A").openURL "B" "B").history.atCurrent :=
  have hok : ((empty.openURL "A" "A").openURL "B" "B").history.CursorOk := by decide
  have hpos : (0 : Int) < ((empty.openURL "A" "A").openURL "B" "B").history.atCurrent := by
    decide
  ⟨hok, (canGoBack_iff_cursor_pos _ hok).1.2 hpos, hpos⟩

/-- C2: for a history whose cursor is `-1` or a valid index, `canGoForward()`
is true exactly when the cursor is strictly less than `count - 1`; it is
false for an empty history and when the cursor is on the last entry. -/
theorem canGoForward_iff_cursor_lt_last (v : KonqView) (hr : v.history.Representable)
    (h : v.history.CursorOk) :
    (v.canGoForward = true ↔ v.history.atCurrent < (v.history.count : Int) - 1) ∧
    (v.history.items = [] → v.canGoForward = false) ∧
    (v.history.atCurrent = (v.history.count : Int) - 1 → v.canGoForward = false) := by
  unfold canGoForward history QList.atCurrent QList.count wrapInt32
  unfold history QList.CursorOk at h
  unfold history QList.Representable at hr
  refine ⟨?_, ?_, ?_⟩
  · simp only [decide_eq_true_eq]
    omega
  · intro he
    rw [he] at h ⊢
    simp only [List.length_nil, Nat.cast_zero] at h ⊢
    simp only [decide_eq_false_iff_not, not_not]
    omega
  · intro hl
    simp only [decide_eq_false_iff_not, not_not]
    omega

/-- Witness of C2 on the pane that displayed `A` and `B` and went back. -/
theorem canGoForward_iff_cursor_lt_last_witness :
    ({ empty with m_lstHistory :=
        { items := ((empty.openURL "A" "A").openURL "B" "B").history.items,
          curIndex := 0 } }).canGoForward = true :=
  (canGoForward_iff_cursor_lt_last
    { empty with m_lstHistory :=
        { items := ((empty.openURL "A" "A").openURL "B" "B").history.items,
          curIndex := 0 } } (by decide) (by decide)).1.2 (by decide)

/-- C3: `isLockedViewMode()` is `lockedViewMode || toggle || passive`: a
toggle pane and a passive pane are locked whatever `setLockedViewMode` got, a
pane with none of the three flags is not locked, and two panes that differ
only outside these three flags (locked location, linked, ...) agree. -/
theorem isLockedViewMode_eq_or (v w : KonqView) (mode b : Bool) :
    v.isLockedViewMode = (v.m_bLockedViewMode || v.isToggleView || v.isPassiveMode) ∧
    (v.isToggleView = true → (v.setLockedViewMode mode).isLockedViewMode = true) ∧
    (v.isPassiveMode = true → (v.setLockedViewMode mode).isLockedViewMode = true) ∧
    ((v.setToggleView true).setLockedViewMode mode).isLockedViewMode = true ∧
    (v.m_bLockedViewMode = false → v.isToggleView = false → v.isPassiveMode = false →
      v.isLockedViewMode = false) ∧
    (v.setLockedLocation b).isLockedViewMode = v.isLockedViewMode ∧
    ({ v with m_bLinkedView := b }).isLockedViewMode = v.isLockedViewMode ∧
    (w.m_bLockedViewMode = v.m_bLockedViewMode → w.isToggleView = v.isToggleView →
      w.isPassiveMode = v.isPassiveMode → w.isLockedViewMode = v.isLockedViewMode) := by
  unfold isLockedViewMode setLockedViewMode setToggleView setLockedLocation isToggleView
    isPassiveMode
  refine ⟨rfl, ?_, ?_, ?_, ?_, rfl, rfl, ?_⟩
  · intro ht; simp [ht]
  · intro hp; simp [hp]
  · simp
  · intro h1 h2 h3; simp [h1, h2, h3]
  · intro h1 h2 h3; simp [h1, h2, h3]

end KonqView

end Konq

namespace Dolphin

open Konq (wrapInt32)

namespace SelectionManager

/-- Truncating division by two: twice the quotient is within one of the
dividend, on the side of zero. -/
theorem tdiv_two_bounds (x : Int) :
    (x ≤ 0 → x ≤ 2 * Int.tdiv x 2 ∧ 2 * Int.tdiv x 2 ≤ x + 1 ∧ Int.tdiv x 2 ≤ 0) ∧
    (0 ≤ x → 2 * Int.tdiv x 2 ≤ x ∧ x - 1 ≤ 2 * Int.tdiv x 2) := by
  constructor
  · intro h
    obtain ⟨y, rfl⟩ : ∃ y, x = -y := ⟨-x, by omega⟩
    rw [Int.neg_tdiv, Int.tdiv_eq_ediv (by omega) (by decide)]
    omega
  · intro h
    rw [Int.tdiv_eq_ediv h (by decide)]
    omega

/-- C7, counterexample: for an icon height of 8 and an item of height 12 the
toggle gets the margin `-2`, which is not between 0 and 4. -/
theorem slotEntered_margin_negative :
    (slotEntered idle smallItem true 8).m_toggle.margin = -2 ∧
    ¬ (0 ≤ (slotEntered idle smallItem true 8).m_toggle.margin ∧
        (slotEntered idle smallItem true 8).m_toggle.margin ≤ 4) := by
  decide

/-- C7, amended: when the entered item is shown, for every icon height and
every item height (an `int` from which the base size can be subtracted
without overflow), the margin given to the toggle is at most 4 and it is
non-negative exactly when the item height is at least the base toggle size
less one; it is the truncating half-difference `(itemHeight - baseSize) / 2`
when that is at most 4 and zero otherwise (so it is non-zero only for a
half-difference of at most 4, and negative for an item lower than the base
size by two or more), and the toggle is resized to a square of side
`baseSize + 2 * margin`. -/
theorem slotEntered_margin_small (m : SelectionManager) (index : EnteredIndex)
    (iconHeight : Int) (hvalid : index.isValid = true) (hname : index.isNameColumn = true)
    (hlo : -2147483648 ≤ index.visualRect.height - toggleBaseSize iconHeight)
    (hhi : index.visualRect.height < 2147483648) :
    (0 ≤ (slotEntered m index true iconHeight).m_toggle.margin ↔
      toggleBaseSize iconHeight - 1 ≤ index.visualRect.height) ∧
    (slotEntered m index true iconHeight).m_toggle.margin ≤ 4 ∧
    (slotEntered m index true iconHeight).m_toggle.margin =
      (if Int.tdiv (index.visualRect.height - toggleBaseSize iconHeight) 2 ≤ 4
        then Int.tdiv (index.visualRect.height - toggleBaseSize iconHeight) 2 else 0) ∧
    ((slotEntered m index true iconHeight).m_toggle.margin ≠ 0 →
      Int.tdiv (index.visualRect.height - toggleBaseSize iconHeight) 2 ≤ 4) ∧
    (slotEntered m index true iconHeight).m_toggle.size =
      { width := toggleBaseSize iconHeight +
          2 * (slotEntered m index true iconHeight).m_toggle.margin,
        height := toggleBaseSize iconHeight +
          2 * (slotEntered m index true iconHeight).m_toggle.margin } := by
  have hbase : toggleBaseSize iconHeight = 16 ∨ toggleBaseSize iconHeight = 22 ∨
      toggleBaseSize iconHeight = 32 := by
    unfold toggleBaseSize KIconLoader.SizeEnormous KIconLoader.SizeLarge KIconLoader.SizeMedium
      KIconLoader.SizeSmallMedium KIconLoader.SizeSmall
    split
    · right; right; rfl
    · split
      · right; left; rfl
      · left; rfl
  have hw : wrapInt32 (index.visualRect.height - toggleBaseSize iconHeight) =
      index.visualRect.height - toggleBaseSize iconHeight := by
    unfold wrapInt32
    omega
  have hd := tdiv_two_bounds (index.visualRect.height - toggleBaseSize iconHeight)
  have hm : toggleMargin iconHeight index.visualRect.height =
      (if Int.tdiv (index.visualRect.height - toggleBaseSize iconHeight) 2 ≤ 4
        then Int.tdiv (index.visualRect.height - toggleBaseSize iconHeight) 2 else 0) := by
    unfold toggleMargin
    simp only [hw]
    split <;> split <;> omega
  have hsign : 0 ≤ toggleMargin iconHeight index.visualRect.height ↔
      toggleBaseSize iconHeight - 1 ≤ index.visualRect.height := by
    rw [hm]
    rcases (by omega : index.visualRect.height - toggleBaseSize iconHeight ≤ 0 ∨
      0 ≤ index.visualRect.height - toggleBaseSize iconHeight) with h | h
    · have h1 := hd.1 h
      split <;> omega
    · have h1 := hd.2 h
      split <;> omega
  have hle : toggleMargin iconHeight index.visualRect.height ≤ 4 := by
    rw [hm]
    split <;> omega
  have hside : toggleSide iconHeight index.visualRect.height =
      toggleBaseSize iconHeight + 2 * toggleMargin iconHeight index.visualRect.height := by
    have hlow : index.visualRect.height - toggleBaseSize iconHeight - 1 ≤
        2 * toggleMargin iconHeight index.visualRect.height ∨
        0 ≤ toggleMargin iconHeight index.visualRect.height := by
      rw [hm]
      rcases (by omega : index.visualRect.height - toggleBaseSize iconHeight ≤ 0 ∨
        0 ≤ index.visualRect.height - toggleBaseSize iconHeight) with h | h
      · have h1 := hd.1 h
        split <;> omega
      · have h1 := hd.2 h
        split <;> omega
    unfold toggleSide wrapInt32
    omega
  have hs : (slotEntered m index true iconHeight).m_toggle =
      { visible := true, checked := index.isSelected, url := index.url,
        margin := toggleMargin iconHeight index.visualRect.height,
        size := { width := toggleSide iconHeight index.visualRect.height,
                  height := toggleSide iconHeight index.visualRect.height },
        pos := index.visualRect.topLeft } := by
    simp [slotEntered, hvalid, hname]
  rw [hs]
  refine ⟨hsign, hle, hm, ?_, ?_⟩
  · intro hne
    by_contra hgt
    apply hne
    show toggleMargin iconHeight index.visualRect.height = 0
    rw [hm, if_neg hgt]
  · show ({ width := toggleSide iconHeight index.visualRect.height,
            height := toggleSide iconHeight index.visualRect.height } : QSize) = _
    rw [hside]

/-- Witness of the amended C7: on a row of height 22 with 16 pixel icons the
margin is 3 and the toggle is 22 by 22; on an item of height 12 with 8 pixel
icons the margin is -2 and the toggle is 12 by 12. -/
theorem slotEntered_margin_small_witness :
    ((slotEntered idle rowItem true 16).m_toggle.margin = 3 ∧
      (slotEntered idle rowItem true 16).m_toggle.size = { width := 22, height := 22 }) ∧
    ((slotEntered idle smallItem true 8).m_toggle.margin ≤ 4 ∧
      ¬ (0 ≤ (slotEntered idle smallItem true 8).m_toggle.margin) ∧
      (slotEntered idle smallItem true 8).m_toggle.size = { width := 12, height := 12 }) :=
  have h := slotEntered_margin_small idle rowItem 16 (by decide) (by decide) (by decide)
    (by decide)
  have h2 := slotEntered_margin_small idle smallItem 8 (by decide) (by decide) (by decide)
    (by decide)
  ⟨⟨h.2.2.1.trans (by decide), h.2.2.2.2.trans (by decide)⟩,
   ⟨h2.2.1, fun hge => absurd (h2.1.1 hge) (by decide), h2.2.2.2.2.trans (by decide)⟩⟩

/-- C8: the base size of the toggle is `SizeMedium` for an icon height of at
least `SizeEnormous`, `SizeSmallMedium` from `SizeLarge` up to `SizeEnormous`
excluded, `SizeSmall` below; with KDE's values these sizes and thresholds are
ordered and the base size is monotone in the icon height. -/
theorem toggleBaseSize_cases_mono (a b : Int) (hab : a ≤ b) :
    (KIconLoader.SizeEnormous ≤ a → toggleBaseSize a = KIconLoader.SizeMedium) ∧
    (KIconLoader.SizeLarge ≤ a → a < KIconLoader.SizeEnormous →
      toggleBaseSize a = KIconLoader.SizeSmallMedium) ∧
    (a < KIconLoader.SizeLarge → toggleBaseSize a = KIconLoader.SizeSmall) ∧
    (KIconLoader.SizeSmall = 16 ∧ KIconLoader.SizeSmallMedium = 22 ∧
      KIconLoader.SizeMedium = 32 ∧ KIconLoader.SizeLarge = 48 ∧
      KIconLoader.SizeEnormous = 128) ∧
    toggleBaseSize a ≤ toggleBaseSize b := by
  unfold toggleBaseSize KIconLoader.SizeEnormous KIconLoader.SizeLarge KIconLoader.SizeMedium
    KIconLoader.SizeSmallMedium KIconLoader.SizeSmall
  refine ⟨?_, ?_, ?_, ⟨rfl, rfl, rfl, rfl, rfl⟩, ?_⟩
  · intro h; simp [h]
  · intro h1 h2
    have : ¬ a ≥ 128 := by omega
    simp [this, h1]
  · intro h
    have h1 : ¬ a ≥ 128 := by omega
    have h2 : ¬ a ≥ 48 := by omega
    simp [h1, h2]
  · split <;> split <;> (try split) <;> (try split) <;> omega

/-- Witness of C8 on the icon heights 48 and 128. -/
theorem toggleBaseSize_cases_mono_witness :
    toggleBaseSize 48 = 22 ∧ toggleBaseSize 128 = 32 ∧
    toggleBaseSize 48 ≤ toggleBaseSize 128 :=
  ⟨by decide, by decide, (toggleBaseSize_cases_mono 48 128 (by decide)).2.2.2.2⟩

/-- C9: on a mouse button press the toggle is visible afterwards exactly when
the global cursor position lies inside the toggle's bounds (its global top
left plus its size) and nothing else of the manager changes; for every other
event type the manager, hence the visibility, is unchanged; the filter
returns the result of `QObject::eventFilter`, so it never consumes the
event. -/
theorem eventFilter_hides_outside (m : SelectionManager) (event : QEventType)
    (toggleOrigin cursorPos : QPoint) (hw : 0 ≤ m.m_toggle.size.width)
    (hh : 0 ≤ m.m_toggle.size.height) :
    (event = QEventType.mouseButtonPress →
      (((eventFilter m event toggleOrigin cursorPos).1.m_toggle.visible = true ↔
        (toggleOrigin.x ≤ cursorPos.x ∧ cursorPos.x < toggleOrigin.x + m.m_toggle.size.width ∧
         toggleOrigin.y ≤ cursorPos.y ∧
         cursorPos.y < toggleOrigin.y + m.m_toggle.size.height)) ∧
       (eventFilter m event toggleOrigin cursorPos).1 =
        { m with m_toggle := { m.m_toggle with
            visible := (eventFilter m event toggleOrigin cursorPos).1.m_toggle.visible } })) ∧
    (event ≠ QEventType.mouseButtonPress →
      (eventFilter m event toggleOrigin cursorPos).1 = m) ∧
    (eventFilter m event toggleOrigin cursorPos).2 = QObject.eventFilter event ∧
    (eventFilter m event toggleOrigin cursorPos).2 = false := by
  refine ⟨?_, ?_, rfl, rfl⟩
  · intro he
    subst he
    refine ⟨?_, ?_⟩
    · simp only [eventFilter, if_true, QRect.contains, QRect.ofTopLeftSize]
      have hx : ¬ (toggleOrigin.x + m.m_toggle.size.width - 1 < toggleOrigin.x - 1) := by omega
      have hy : ¬ (toggleOrigin.y + m.m_toggle.size.height - 1 < toggleOrigin.y - 1) := by
        omega
      simp only [hx, hy, if_false]
      constructor
      · intro h
        split at h
        · cases h
        · split at h
          · cases h
          · omega
      · intro h
        rw [if_neg (by omega), if_neg (by omega)]
    · simp [eventFilter]
  · intro hne
    simp [eventFilter, hne]

/-- Witness of C9: a press at (5, 5) inside a 16 by 16 toggle at the origin
leaves it visible, a press at (40, 5) hides it. -/
theorem eventFilter_hides_outside_witness :
    (eventFilter idle QEventType.mouseButtonPress { x := 0, y := 0 }
      { x := 5, y := 5 }).1.m_toggle.visible = true ∧
    (eventFilter idle QEventType.mouseButtonPress { x := 0, y := 0 }
      { x := 40, y := 5 }).1.m_toggle.visible = false :=
  ⟨((eventFilter_hides_outside idle QEventType.mouseButtonPress { x := 0, y := 0 }
      { x := 5, y := 5 } (by decide) (by decide)).1 rfl).1.2 (by decide),
   by decide⟩

end SelectionManager

end Dolphin

namespace Konq

namespace HistoryStack

variable {α : Type}

/-- Dropping the entries beyond the cursor keeps the first `cursor + 1 - i`
entries of a list whose head has index `i`. -/
theorem dropBeyond_eq_take (cursor : Int) (xs : List α) (i : Nat) :
    dropBeyond cursor i xs = xs.take (cursor + 1 - i).toNat := by
  induction xs generalizing i with
  | nil => simp [dropBeyond]
  | cons x xs ih =>
    unfold dropBeyond
    split
    · next hle =>
      have hk : (cursor + 1 - (i : Int)).toNat = (cursor + 1 - ((i + 1 : Nat) : Int)).toNat + 1 := by
        push_cast
        omega
      rw [hk, List.take_succ_cons, ih]
    · next hgt =>
      have hk : (cursor + 1 - (i : Int)).toNat = 0 := by omega
      have hk1 : (cursor + 1 - ((i + 1 : Nat) : Int)).toNat = 0 := by
        push_cast
        omega
      rw [ih, hk, hk1]
      simp

/-- The entries after `append`: the entries up to the cursor, then the new
one. -/
theorem append_items (l : QList α) (e : α) :
    (append l e).items = l.items.take (l.curIndex + 1).toNat ++ [e] := by
  simp [append, dropBeyond_eq_take]

/-- The cursor after `append` is the last index. -/
theorem append_curIndex (l : QList α) (e : α) :
    (append l e).curIndex = ((append l e).items.length : Int) - 1 := by
  simp [append]

/-- The current entry after `append` is the new one. -/
theorem append_current (l : QList α) (e : α) : (append l e).current = some e := by
  have hc : (append l e).curIndex = ((dropBeyond l.curIndex 0 l.items).length : Int) := by
    simp [append]
  have hi : (append l e).items = dropBeyond l.curIndex 0 l.items ++ [e] := rfl
  unfold QList.current
  rw [hc, hi]
  simp

/-- An `append` never leaves the history as it was. -/
theorem append_ne (l : QList α) (e : α) : append l e ≠ l := by
  intro h
  have hi := append_items l e
  have hc := append_curIndex l e
  rw [h] at hi hc
  have hlen := congrArg List.length hi
  simp only [List.length_append, List.length_take, List.length_singleton] at hlen
  omega

/-- Updating the current entry keeps the cursor and the number of entries. -/
theorem updateCurrent_shape (l : QList α) (f : α → α) :
    (updateCurrent l f).curIndex = l.curIndex ∧
    (updateCurrent l f).items.length = l.items.length := by
  unfold updateCurrent
  split <;> simp

/-- The current entry after `updateCurrent` is the image of the former one. -/
theorem updateCurrent_current (l : QList α) (f : α → α) :
    (updateCurrent l f).current = l.current.map f := by
  unfold updateCurrent QList.current
  split
  · next h => simp [h, List.getElem?_modify]
  · next h => simp [h]

/-- A move to a valid index succeeds. -/
theorem move_ok (l : QList α) (steps : Int) (e : α) (hpos : 0 ≤ l.curIndex + steps)
    (he : l.items[(l.curIndex + steps).toNat]? = some e) :
    move l steps = .ok ({ l with curIndex := l.curIndex + steps }, e) := by
  unfold move
  simp only []
  rw [if_pos hpos, he]

end HistoryStack

namespace KonqView

/-- A `go` to a valid index is the suppressed display of the entry found
there. -/
theorem go_ok (v : KonqView) (steps : Int) (e : HistoryEntry)
    (hpos : 0 ≤ v.m_lstHistory.curIndex + steps)
    (he : v.m_lstHistory.items[(v.m_lstHistory.curIndex + steps).toNat]? = some e) :
    v.go steps = .ok (display
      { v with m_lstHistory :=
          { v.m_lstHistory with curIndex := v.m_lstHistory.curIndex + steps } }
      e.url (some e.locationBarURL) true) := by
  unfold go
  rw [HistoryStack.move_ok v.m_lstHistory steps e hpos he]

/-- The history after a suppressed display: the current entry is updated in
place. -/
theorem display_suppressed_history (u : KonqView) (address : KURL) (hint : Option QString) :
    (u.display address hint true).m_lstHistory =
      HistoryStack.updateCurrent u.m_lstHistory
        (fun e => { e with url := address,
                           locationBarURL := u.displayedAddress address hint }) := rfl

/-- A display keeps the `allowHTML` flag and the service type of the pane. -/
theorem display_keeps (u : KonqView) (address : KURL) (hint : Option QString)
    (suppress : Bool) :
    (u.display address hint suppress).m_bAllowHTML = u.m_bAllowHTML ∧
    (u.display address hint suppress).m_serviceType = u.m_serviceType := ⟨rfl, rfl⟩

end KonqView

end Konq

namespace Konq

namespace KonqView

/-- The history after an `openURL` that finds the lock set: the current entry
is updated in place. -/
theorem openURL_locked_history (u : KonqView) (a : KURL) (la : QString)
    (h : u.m_bLockHistory = true) :
    (u.openURL a la).m_lstHistory =
      HistoryStack.updateCurrent u.m_lstHistory
        (fun e => { e with url := a,
                           locationBarURL := u.displayedAddress a (some la) }) := by
  unfold openURL display
  simp only [h]
  rfl

/-- Every `openURL` leaves the lock cleared. -/
theorem openURL_clears_lock (u : KonqView) (a : KURL) (la : QString) :
    (u.openURL a la).m_bLockHistory = false := rfl

/-- The history after an `openURL` that finds the lock cleared and is not a
same-entry reload: a new entry is appended. -/
theorem openURL_unlocked_history (u : KonqView) (b : KURL) (lb : QString)
    (h : u.m_bLockHistory = false) (hre : u.isSameEntryReload b = false) :
    (u.openURL b lb).m_lstHistory =
      HistoryStack.append u.m_lstHistory
        { url := b, locationBarURL := u.displayedAddress b (some lb), title := "",
          buffer := [], strServiceType := u.m_serviceType, strServiceName := "" } := by
  have hre1 : ({ u with m_bLockHistory := false } : KonqView).isSameEntryReload b = false :=
    hre
  unfold openURL display
  simp only [h, hre1]
  rfl

/-- C4: `lockHistory()` followed by the next `openURL(a)` leaves
`history().count()` unchanged and clears the lock; a later `openURL(b)` of a
new address `b`, without a fresh `lockHistory()`, changes the history: it
makes a new entry for `b` the current one. -/
theorem lockHistory_one_shot (v : KonqView) (a b : KURL) (la lb : QString) (hnew : b ≠ a) :
    (v.lockHistory.openURL a la).history.count = v.history.count ∧
    (v.lockHistory.openURL a la).m_bLockHistory = false ∧
    ((v.lockHistory.openURL a la).openURL b lb).history ≠
      (v.lockHistory.openURL a la).history ∧
    (∃ e, ((v.lockHistory.openURL a la).openURL b lb).history.current = some e ∧
      e.url = b) ∧
    ((v.lockHistory.openURL a la).openURL b lb).history.items =
      (v.lockHistory.openURL a la).history.items.take
        ((v.lockHistory.openURL a la).history.atCurrent + 1).toNat ++
      [{ url := b,
         locationBarURL := (v.lockHistory.openURL a la).displayedAddress b (some lb),
         title := "", buffer := [],
         strServiceType := (v.lockHistory.openURL a la).m_serviceType,
         strServiceName := "" }] := by
  have h1 : (v.lockHistory.openURL a la).m_lstHistory =
      HistoryStack.updateCurrent v.m_lstHistory
        (fun e => { e with url := a,
                           locationBarURL := v.displayedAddress a (some la) }) :=
    openURL_locked_history v.lockHistory a la rfl
  have h2 : (v.lockHistory.openURL a la).m_bLockHistory = false :=
    openURL_clears_lock v.lockHistory a la
  have hre : (v.lockHistory.openURL a la).isSameEntryReload b = false := by
    unfold isSameEntryReload
    rw [h1, HistoryStack.updateCurrent_current]
    cases v.m_lstHistory.current with
    | none => rfl
    | some e =>
      simp only [Option.map_some']
      exact decide_eq_false (fun h => hnew h.symm)
  have h3 := openURL_unlocked_history (v.lockHistory.openURL a la) b lb h2 hre
  refine ⟨?_, h2, ?_, ?_, ?_⟩
  · unfold history QList.count
    rw [h1]
    exact (HistoryStack.updateCurrent_shape _ _).2
  · unfold history
    rw [h3]
    exact HistoryStack.append_ne _ _
  · unfold history
    rw [h3, HistoryStack.append_current]
    exact ⟨_, rfl, rfl⟩
  · unfold history QList.atCurrent
    rw [h3, HistoryStack.append_items]

/-- Witness of C4: a pane that displayed `A` and `B`, reloads `B` under the
lock and then displays `C`. -/
theorem lockHistory_one_shot_witness :
    ((((empty.openURL "A" "A").openURL "B" "B").lockHistory.openURL "B" "B").history.count = 2) ∧
    (((((empty.openURL "A" "A").openURL "B" "B").lockHistory.openURL "B" "B").openURL
      "C" "C").history.count = 3) ∧
    (((((empty.openURL "A" "A").openURL "B" "B").lockHistory.openURL "B" "B").openURL
      "C" "C").history ≠
      (((empty.openURL "A" "A").openURL "B" "B").lockHistory.openURL "B" "B").history) :=
  ⟨by decide, by decide,
    (lockHistory_one_shot ((empty.openURL "A" "A").openURL "B" "B") "B" "C" "B" "C"
      (by decide)).2.2.1⟩

/-- C5: creating a history entry drops every entry beyond the cursor, appends
the new entry and puts the cursor on the last index, for every history and
cursor; and from the history `[a, b, c]` with the cursor on `c`, `go(-2)`
followed by the display of a new address `d` yields two entries, the entry of
`a` (as the re-display of `go` recorded it) and the entry of `d`, with the
cursor on the entry of `d`: the addresses are `[a, d]`. -/
theorem createHistoryEntry_truncates (v w : KonqView) (entry a b c : HistoryEntry)
    (d : KURL) (ld : QString) (hist : w.history = { items := [a, b, c], curIndex := 2 })
    (hlock : w.m_bLockHistory = false) (hd : d ≠ a.url) :
    ((v.createHistoryEntry entry).history.items =
        v.history.items.take (v.history.atCurrent + 1).toNat ++ [entry] ∧
      (∀ i : Nat, (i : Int) ≤ v.history.atCurrent → i < v.history.count →
        (v.createHistoryEntry entry).history.items[i]? = v.history.items[i]?) ∧
      (∀ i : Nat, v.history.atCurrent < (i : Int) → i < v.history.count →
        (v.createHistoryEntry entry).history.items[i]? ≠ none →
        (v.createHistoryEntry entry).history.items[i]? = some entry) ∧
      (v.createHistoryEntry entry).history.atCurrent =
        ((v.createHistoryEntry entry).history.count : Int) - 1 ∧
      (v.createHistoryEntry entry).history.current = some entry) ∧
    (∃ w1 e, w.go (-2) = .ok w1 ∧
      (w1.openURL d ld).history =
        { items := [{ a with locationBarURL :=
                        w.displayedAddress a.url (some a.locationBarURL) }, e],
          curIndex := 1 } ∧
      (w1.openURL d ld).history.items.map HistoryEntry.url = [a.url, d] ∧
      (w1.openURL d ld).history.atCurrent = 1 ∧
      (w.allowHTML = true →
        (w1.openURL d ld).history = { items := [a, e], curIndex := 1 }) ∧
      e.url = d ∧ (w1.openURL d ld).url = d) := by
  refine ⟨⟨?_, ?_, ?_, ?_, ?_⟩, ?_⟩
  · exact HistoryStack.append_items _ _
  · intro i hi hlt
    unfold history QList.atCurrent at hi
    unfold history QList.count at hlt
    show (HistoryStack.append v.m_lstHistory entry).items[i]? = v.m_lstHistory.items[i]?
    rw [HistoryStack.append_items]
    rw [List.getElem?_append_left (by rw [List.length_take]; omega),
      List.getElem?_take_of_lt (by omega)]
  · intro i hi hcount hsome
    unfold history QList.atCurrent at hi
    unfold history QList.count at hcount
    have hitems : (v.createHistoryEntry entry).history.items =
        v.m_lstHistory.items.take (v.m_lstHistory.curIndex + 1).toNat ++ [entry] :=
      HistoryStack.append_items _ _
    rw [hitems] at hsome ⊢
    have hlen : (v.m_lstHistory.items.take (v.m_lstHistory.curIndex + 1).toNat).length =
        (v.m_lstHistory.curIndex + 1).toNat := by
      rw [List.length_take]; omega
    by_cases hi2 : i = (v.m_lstHistory.curIndex + 1).toNat
    · rw [List.getElem?_append_right (by omega), hlen, hi2]
      simp
    · exfalso
      apply hsome
      rw [List.getElem?_eq_none]
      rw [List.length_append, hlen, List.length_singleton]
      omega
  · exact HistoryStack.append_curIndex _ _
  · exact HistoryStack.append_current _ _
  · unfold history at hist
    have hgo := go_ok w (-2) a (by rw [hist]; show (0 : Int) ≤ 2 + -2; omega)
      (by rw [hist]; rfl)
    have hne : decide (a.url = d) = false := decide_eq_false (fun h => hd h.symm)
    have hh : ((display
        { w with m_lstHistory :=
            { w.m_lstHistory with curIndex := w.m_lstHistory.curIndex + -2 } }
        a.url (some a.locationBarURL) true).openURL d ld).m_lstHistory =
        { items := [{ a with locationBarURL :=
                        w.displayedAddress a.url (some a.locationBarURL) },
                    HistoryEntry.mk d (w.displayedAddress d (some ld)) "" []
                      w.m_serviceType ""],
          curIndex := 1 } := by
      refine (openURL_unlocked_history _ d ld ?_ ?_).trans ?_
      · exact hlock
      · unfold isSameEntryReload
        rw [display_suppressed_history, HistoryStack.updateCurrent_current]
        simp [QList.current, hist, hne]
      · rw [display_suppressed_history]
        simp [HistoryStack.append, HistoryStack.dropBeyond, HistoryStack.updateCurrent, hist,
          displayedAddress, List.modify, List.modifyHead, display_keeps]
    refine ⟨_, HistoryEntry.mk d (w.displayedAddress d (some ld)) "" [] w.m_serviceType "",
      hgo, hh, ?_, ?_, ?_, rfl, rfl⟩
    · unfold history
      rw [hh]
      rfl
    · unfold history QList.atCurrent
      rw [hh]
    · intro hallow
      unfold history
      rw [hh]
      have hshown : w.displayedAddress a.url (some a.locationBarURL) = a.locationBarURL := by
        unfold allowHTML at hallow
        simp [displayedAddress, hallow]
      rw [hshown]

/-- Witness of C5 on the pane that displayed `A`, `B` and `C`: `go(-2)` and
the display of `D` yield the addresses `[A, D]` with the cursor on `D`. -/
theorem createHistoryEntry_truncates_witness :
    ∃ w1, (((empty.openURL "A" "A").openURL "B" "B").openURL "C" "C").go (-2) = .ok w1 ∧
      (w1.openURL "D" "D").history.items.map HistoryEntry.url = ["A", "D"] ∧
      (w1.openURL "D" "D").history.atCurrent = 1 := by
  obtain ⟨w1, e, hgo, _, hmap, hcur, _⟩ := createHistoryEntry_truncates empty
    (((empty.openURL "A" "A").openURL "B" "B").openURL "C" "C")
    { url := "", locationBarURL := "", title := "", buffer := [], strServiceType := "",
      strServiceName := "" }
    { url := "A", locationBarURL := "A", title := "", buffer := [], strServiceType := "",
      strServiceName := "" }
    { url := "B", locationBarURL := "B", title := "", buffer := [], strServiceType := "",
      strServiceName := "" }
    { url := "C", locationBarURL := "C", title := "", buffer := [], strServiceType := "",
      strServiceName := "" }
    "D" "D" (by decide) (by decide) (by decide) |>.2
  exact ⟨w1, hgo, hmap, hcur⟩

end KonqView

end Konq
